import Mathlib

/-!
Shallow embedding of the core of the port-scanner repository
(file port_scanner.py) and verification of the frozen claims about it.

Modelling conventions:
* Python byte strings are lists of byte values (List Nat), Python text
  strings are Lean Strings (lists of Chars underneath).
* Python dicts keyed by ports are association lists that replace the
  value in place on an existing key and append otherwise, which matches
  the insertion-order semantics of Python dicts.
* Network effects (connect_ex results, exceptions raised by socket
  calls, bytes received, the getservbyport table, getaddrinfo results)
  are oracles passed in as explicit parameters; a Python function that
  swallows exceptions and returns None is an Option-valued function.
* Machine-level values (IPv4 addresses) are Nat with explicit bounds.
-/

namespace PortScan

/-! ### Python truthiness helpers -/

/-- Truthiness of a Python Optional[str]: None and the empty string are
falsy. -/
def pyTruthyOptStr : Option String → Bool
  | none => false
  | some s => !s.isEmpty

/-- Truthiness of a Python Optional[int]: None and 0 are falsy. -/
def pyTruthyOptNat : Option Nat → Bool
  | none => false
  | some n => n != 0

/-! ### Substring test (Python `key in b`) -/

/-- Boolean substring test on char lists: does `key` occur contiguously
inside `s`?  Models the Python expression `key in b` on str. -/
def listContains (key : List Char) : List Char → Bool
  | [] => key.isEmpty
  | c :: rest => key.isPrefixOf (c :: rest) || listContains key rest

/-- Substring test on strings, models Python `key in b`. -/
def strContains (key s : String) : Bool := listContains key.data s.data

/-- Lowercasing of a character as done by Python str.lower on the ASCII
range (banner keywords are all ASCII, so only this range matters for
the classifier). -/
def pyLowerChar (c : Char) : Char :=
  if 'A' ≤ c ∧ c ≤ 'Z' then Char.ofNat (c.toNat + 32) else c

/-- Lowercasing of a string, models Python str.lower (ASCII range). -/
def pyLower (s : String) : String := String.mk (s.data.map pyLowerChar)

/-! ### ServiceClassifier: get_service_name and detect_service_from_banner -/

/-- Result of socket.getservbyport for each port: the environment's
port-to-service table; none models the raised exception when the port
has no table entry. -/
def ServTable : Type := Nat → Option String

/-- PortScanner.get_service_name: getservbyport, with any exception
mapped to the string "unknown". -/
def get_service_name (table : ServTable) (port : Nat) : String :=
  (table port).getD "unknown"

/-- The fixed keyword→label rule list `checks` from
detect_service_from_banner, in source order. -/
def serviceChecks : List (String × String) :=
  [("nginx", "nginx"),
   ("apache", "apache"),
   ("iis", "iis"),
   ("tomcat", "tomcat"),
   ("ssh", "ssh"),
   ("smtp", "smtp"),
   ("esmtp", "smtp"),
   ("ftp", "ftp"),
   ("mysql", "mysql"),
   ("mariadb", "mysql"),
   ("postgres", "postgresql"),
   ("http", "http"),
   ("http/", "http"),
   ("ssl", "ssl"),
   ("openssl", "ssl"),
   ("ssh-", "ssh"),
   ("postfix", "smtp"),
   ("exim", "smtp"),
   ("dovecot", "imap/pop3"),
   ("imap", "imap"),
   ("pop3", "pop3"),
   ("rdp", "rdp")]

/-- The loop `for key, name in checks: if key in b: ...` — returns the
label of the first rule whose keyword occurs in `b`. -/
def firstMatch (checks : List (String × String)) (b : String) : Option String :=
  match checks with
  | [] => none
  | (key, name) :: rest =>
      if strContains key b then some name else firstMatch rest b

/-- The `base` computed at the top of detect_service_from_banner:
the port-table name if it is truthy and not "unknown", else None. -/
def baseName (table : ServTable) (port : Nat) : Option String :=
  let svc := get_service_name table port
  if ¬svc.isEmpty ∧ svc ≠ "unknown" then some svc else none

/-- PortScanner.detect_service_from_banner, translated line by line:
compute the base name from the port table; with no (truthy) banner
return it (or "unknown"); otherwise lowercase the banner and take the
first matching keyword rule, combining with the base name when one
exists; with no match return the base name (or "unknown"). -/
def detect_service_from_banner (table : ServTable) (port : Nat)
    (banner : Option String) : String :=
  let base := baseName table port
  if pyTruthyOptStr banner = false then base.getD "unknown"
  else
    let b := pyLower (banner.getD "")
    match firstMatch serviceChecks b with
    | some name =>
        match base with
        | some bs => bs ++ " (" ++ name ++ ")"
        | none => name
    | none => base.getD "unknown"

/-- The keyword rule list with the four rules whose keyword strictly
contains an earlier rule's keyword removed: ("esmtp","smtp"),
("http/","http"), ("openssl","ssl") and ("ssh-","ssh"). -/
def prunedChecks : List (String × String) :=
  [("nginx", "nginx"),
   ("apache", "apache"),
   ("iis", "iis"),
   ("tomcat", "tomcat"),
   ("ssh", "ssh"),
   ("smtp", "smtp"),
   ("ftp", "ftp"),
   ("mysql", "mysql"),
   ("mariadb", "mysql"),
   ("postgres", "postgresql"),
   ("http", "http"),
   ("ssl", "ssl"),
   ("postfix", "smtp"),
   ("exim", "smtp"),
   ("dovecot", "imap/pop3"),
   ("imap", "imap"),
   ("pop3", "pop3"),
   ("rdp", "rdp")]

/-- detect_service_from_banner with the four redundant rules removed
from the keyword table; everything else identical. -/
def detect_service_from_banner_pruned (table : ServTable) (port : Nat)
    (banner : Option String) : String :=
  let base := baseName table port
  if pyTruthyOptStr banner = false then base.getD "unknown"
  else
    let b := pyLower (banner.getD "")
    match firstMatch prunedChecks b with
    | some name =>
        match base with
        | some bs => bs ++ " (" ++ name ++ ")"
        | none => name
    | none => base.getD "unknown"

/-- ServiceClassifier contract as worded in the spec (section 4.5):
base name from the port table (or "unknown" when absent); no banner →
base name; otherwise first keyword rule, in order, whose keyword occurs
in the lowercased banner, rendered "<base> (<label>)" when a base name
exists and just the label otherwise; no match → base name or
"unknown". -/
def classifySpec (table : ServTable) (port : Nat)
    (banner : Option String) : String :=
  match table port with
  | some base =>
      match banner with
      | none => base
      | some s =>
          match serviceChecks.find? (fun kn => strContains kn.1 (pyLower s)) with
          | some kn => base ++ " (" ++ kn.2 ++ ")"
          | none => base
  | none =>
      match banner with
      | none => "unknown"
      | some s =>
          match serviceChecks.find? (fun kn => strContains kn.1 (pyLower s)) with
          | some kn => kn.2
          | none => "unknown"

/-- Fixed port-to-service table used for the concrete classifier
example: it maps port 22 to "ssh" and has no other entry. -/
def sshServTable : ServTable := fun p => if p = 22 then some "ssh" else none

/-! ### NetworkExpander: ip_network, hosts(), expand_cidr_if_needed and
the safety gate of the main target loop -/

/-- An IPv4 network as produced by ipaddress.ip_network: the network
address (host bits cleared) as a Nat below 2^32, and the prefix
length. -/
structure IPv4Net where
  network : Nat
  prefixLen : Nat
  deriving DecidableEq, Repr

/-- ipaddress.ip_network(addr, strict=False): host bits of the given
address are cleared rather than rejected. -/
def ip_network_nonstrict (addr prefixLen : Nat) : IPv4Net :=
  ⟨addr / 2 ^ (32 - prefixLen) * 2 ^ (32 - prefixLen), prefixLen⟩

/-- net.num_addresses: the total number of addresses in the network. -/
def num_addresses (n : IPv4Net) : Nat := 2 ^ (32 - n.prefixLen)

/-- net.broadcast_address as a Nat. -/
def broadcast_address (n : IPv4Net) : Nat := n.network + num_addresses n - 1

/-- network.hosts() for IPv4 (Python 3.8+ semantics): all addresses
strictly between the network and broadcast addresses; a /31 yields both
of its addresses; a /32 yields its single address. -/
def hostsList (n : IPv4Net) : List Nat :=
  if n.prefixLen = 32 then [n.network]
  else if n.prefixLen = 31 then [n.network, n.network + 1]
  else (List.range (num_addresses n - 2)).map (fun i => n.network + 1 + i)

/-- expand_cidr_if_needed on a CIDR target: the list built from
network.hosts().  When that list is empty the source evaluates
next(network.hosts()) on a fresh (also empty) iterator, so
StopIteration escapes and the except-clause re-raises ValueError;
none models that error outcome. -/
def expand_cidr_if_needed (n : IPv4Net) : Option (List Nat) :=
  let hs := hostsList n
  if hs.isEmpty then none else some hs

/-- The CIDR branch of the per-entry logic in main: the safety gate
compares net.num_addresses with --max-hosts; when it exceeds and
--force-network-scan is unset, the confirm_prompt answer decides; a
declined prompt skips the entry (none).  Otherwise the entry expands
via expand_cidr_if_needed (whose error is also caught and skips the
entry). -/
def process_cidr_target (n : IPv4Net) (maxHosts : Nat)
    (force confirm : Bool) : Option (List Nat) :=
  if num_addresses n > maxHosts ∧ force = false ∧ confirm = false then none
  else expand_cidr_if_needed n

/-- The expansion loop of main over the CIDR entries of the target
list: each skipped entry contributes nothing and the run continues with
the remaining entries. -/
def expand_targets (ts : List IPv4Net) (maxHosts : Nat) (force : Bool)
    (confirm : IPv4Net → Bool) : List Nat :=
  match ts with
  | [] => []
  | t :: rest =>
      ((process_cidr_target t maxHosts force (confirm t)).getD []) ++
        expand_targets rest maxHosts force confirm

/-- The count of usable host addresses of a network — the quantity the
spec says the safety gate compares against maxHosts. -/
def usable_host_count (n : IPv4Net) : Nat := (hostsList n).length

/-- All addresses of the network, in ascending order. -/
def allAddresses (n : IPv4Net) : List Nat :=
  (List.range (num_addresses n)).map (fun i => n.network + i)

/-- Usable host addresses as the spec words them: every address of the
network except the network address and the broadcast address, except
that /31 and /32 networks keep all their addresses. -/
def usableHostsSpec (n : IPv4Net) : List Nat :=
  if 31 ≤ n.prefixLen then allAddresses n
  else (allAddresses n).filter
    (fun a => a != n.network && a != broadcast_address n)

/-! ### ConnectProbe: scan_port, with its resource behaviour -/

/-- socket.AF_INET as its numeric value. -/
def AF_INET : Nat := 2

/-- socket.AF_INET6 as its numeric value. -/
def AF_INET6 : Nat := 10

/-- Behaviour of one probe attempt at the socket layer, decided by the
environment: socket creation raises; connect_ex raises; or connect_ex
returns an error code (0 = connection established). -/
inductive ProbeBehavior
  | socketExn
  | connectExn
  | connectRet (code : Int)
  deriving DecidableEq, Repr

/-- Execution trace of one PortScanner.scan_port call: the returned
value, whether a socket was created, and whether it was closed. -/
structure ProbeTrace where
  result : Option Nat
  opened : Bool
  closed : Bool
  deriving DecidableEq, Repr

/-- PortScanner.scan_port with its resource behaviour explicit.
addrSet is the truthiness of self.addr and self.family (line 93); the
except-clause swallows any exception and returns None.  sock.close()
(line 103) runs only on the path where connect_ex returns normally;
there is no try/finally around it. -/
def scan_port_trace (addrSet : Bool) (beh : ProbeBehavior)
    (port : Nat) : ProbeTrace :=
  if !addrSet then ⟨none, false, false⟩
  else
    match beh with
    | .socketExn => ⟨none, false, false⟩
    | .connectExn => ⟨none, true, false⟩
    | .connectRet code => ⟨if code = 0 then some port else none, true, true⟩

/-- The scan environment of one target after resolution: the values of
self.addr and self.family, plus oracles for the outcome of each
connect attempt, the grab_banner result per port, and the
getservbyport table. -/
structure ScanEnv where
  addr : Option String
  family : Option Nat
  connectBeh : Nat → ProbeBehavior
  bannerOf : Nat → Option String
  servTable : ServTable

/-- Truthiness of self.addr and self.family together, the guard of
scan_port line 93 (`if not self.addr or not self.family`). -/
def addrFamilySet (env : ScanEnv) : Bool :=
  pyTruthyOptStr env.addr && pyTruthyOptNat env.family

/-- PortScanner.scan_port: the value returned by the traced probe. -/
def scan_port (env : ScanEnv) (port : Nat) : Option Nat :=
  (scan_port_trace (addrFamilySet env) (env.connectBeh port) port).result

/-- Whether the probe at a port produces a truthy result, i.e. the
`if result:` branch is taken and the port is appended to
open_ports. -/
def probeOpen (env : ScanEnv) (port : Nat) : Bool :=
  pyTruthyOptNat (scan_port env port)

/-! ### AddressResolver: the candidate-selection loop of resolve_target -/

/-- The selection loop of resolve_target over getaddrinfo results
(lines 67-79): each candidate is (family, first sockaddr component);
the loop takes the first candidate whose family is AF_INET or
AF_INET6; none models the "No IPv4/IPv6 address found" failure. -/
def chooseAddrInfo (infos : List (Nat × String)) : Option (Nat × String) :=
  infos.find? (fun i => i.1 == AF_INET || i.1 == AF_INET6)

/-! ### BannerGrabber: decoding and trimming of the received bytes -/

/-- UTF-8 continuation byte test (0x80-0xBF). -/
def isCont (b : Nat) : Bool := 128 ≤ b && b ≤ 191

/-- Valid second byte for a three-byte sequence led by b0, excluding
overlong encodings (0xE0) and surrogates (0xED). -/
def utf8Second3 (b0 b1 : Nat) : Bool :=
  if b0 = 224 then 160 ≤ b1 && b1 ≤ 191
  else if b0 = 237 then 128 ≤ b1 && b1 ≤ 159
  else isCont b1

/-- Valid second byte for a four-byte sequence led by b0, excluding
overlong encodings (0xF0) and code points beyond 0x10FFFF (0xF4). -/
def utf8Second4 (b0 b1 : Nat) : Bool :=
  if b0 = 240 then 144 ≤ b1 && b1 ≤ 191
  else if b0 = 244 then 128 ≤ b1 && b1 ≤ 143
  else isCont b1

/-- Code point of a two-byte UTF-8 sequence. -/
def utf8Byte2 (b0 b1 : Nat) : Nat := (b0 - 192) * 64 + (b1 - 128)

/-- Code point of a three-byte UTF-8 sequence. -/
def utf8Byte3 (b0 b1 b2 : Nat) : Nat :=
  (b0 - 224) * 4096 + (b1 - 128) * 64 + (b2 - 128)

/-- Code point of a four-byte UTF-8 sequence. -/
def utf8Byte4 (b0 b1 b2 b3 : Nat) : Nat :=
  (b0 - 240) * 262144 + (b1 - 128) * 4096 + (b2 - 128) * 64 + (b3 - 128)

/-- bytes.decode('utf-8', errors='ignore'): decode maximal valid UTF-8
sequences and drop invalid bytes.  Skipping one byte at an error and
continuing is extensionally the same as CPython's maximal-subpart
skipping, because valid continuation bytes are themselves invalid as
start bytes and get dropped individually. -/
def utf8DecodeIgnore : List Nat → List Char
  | [] => []
  | b0 :: rest =>
    if b0 < 128 then Char.ofNat b0 :: utf8DecodeIgnore rest
    else if 194 ≤ b0 && b0 ≤ 223 then
      match rest with
      | b1 :: rest2 =>
          if isCont b1 then
            Char.ofNat (utf8Byte2 b0 b1) :: utf8DecodeIgnore rest2
          else utf8DecodeIgnore (b1 :: rest2)
      | [] => []
    else if 224 ≤ b0 && b0 ≤ 239 then
      match rest with
      | b1 :: b2 :: rest3 =>
          if utf8Second3 b0 b1 && isCont b2 then
            Char.ofNat (utf8Byte3 b0 b1 b2) :: utf8DecodeIgnore rest3
          else utf8DecodeIgnore (b1 :: b2 :: rest3)
      | other => utf8DecodeIgnore other
    else if 240 ≤ b0 && b0 ≤ 244 then
      match rest with
      | b1 :: b2 :: b3 :: rest4 =>
          if utf8Second4 b0 b1 && isCont b2 && isCont b3 then
            Char.ofNat (utf8Byte4 b0 b1 b2 b3) :: utf8DecodeIgnore rest4
          else utf8DecodeIgnore (b1 :: b2 :: b3 :: rest4)
      | other => utf8DecodeIgnore other
    else utf8DecodeIgnore rest

/-- Python str whitespace as used by str.strip() with no argument. -/
def pyIsSpace (c : Char) : Bool :=
  ([9, 10, 11, 12, 13, 28, 29, 30, 31, 32, 133, 160, 5760,
    8192, 8193, 8194, 8195, 8196, 8197, 8198, 8199, 8200, 8201, 8202,
    8232, 8233, 8239, 8287, 12288] : List Nat).contains c.toNat

/-- str.strip(): drop whitespace from both ends. -/
def pyStrip (cs : List Char) : List Char :=
  ((cs.dropWhile pyIsSpace).reverse.dropWhile pyIsSpace).reverse

/-- Lines 194-200 of grab_banner, processing the received bytes: an
empty (falsy) byte string returns None; otherwise the bytes are
decoded with errors ignored and stripped.  (The except-clause around
decode is dead code: decoding with errors='ignore' cannot raise.) -/
def grab_banner_postprocess (banner : List Nat) : Option String :=
  if banner.isEmpty then none
  else some (String.mk (pyStrip (utf8DecodeIgnore banner)))

/-! ### ScanScheduler: per-target accumulator, modes, unit of work,
finalized report -/

/-- The mutable per-target accumulator of a PortScanner instance. -/
structure ScannerState where
  open_ports : List Nat
  banners : List (Nat × Option String)
  detected_services : List (Nat × String)
  deriving DecidableEq, Repr

/-- Python dict assignment d[k] = v: replace the value in place when
the key exists, append otherwise (insertion-order semantics). -/
def dictSet {α : Type} : List (Nat × α) → Nat → α → List (Nat × α)
  | [], k, v => [(k, v)]
  | (k', v') :: rest, k, v =>
      if k' = k then (k', v) :: rest else (k', v') :: dictSet rest k v

/-- Python dict .get(k): the stored value when present, None
otherwise. -/
def dictGet {α : Type} (d : List (Nat × α)) (k : Nat) : Option α :=
  (d.find? (fun kv => kv.1 == k)).map (fun kv => kv.2)

/-- The accumulator of a freshly constructed PortScanner. -/
def initState : ScannerState := ⟨[], [], []⟩

/-- The banner-storing statement of the unit of work: `if banner:
self.banners[result] = banner else: self.banners[result] = None` — a
falsy grab_banner result (None or the empty string) is stored as
None. -/
def storeBanner (b : Option String) : Option String :=
  if pyTruthyOptStr b then b else none

/-- The per-port unit of work, identical in all four scan modes
(scan_range / list / single / scan_common_ports): probe the port; on a
truthy result append it to open_ports; when banner grabbing is on,
store banners[result] (the grabbed banner when truthy, None for a
falsy one); when service detection is on, classify using
banners.get(result) and store the result in detected_services. -/
def processPort (env : ScanEnv) (doBanner doService : Bool)
    (st : ScannerState) (port : Nat) : ScannerState :=
  match scan_port env port with
  | none => st
  | some r =>
      if r = 0 then st
      else
        let st1 := { st with open_ports := st.open_ports ++ [r] }
        let st2 :=
          if doBanner then
            { st1 with banners :=
                (dictSet st1.banners r (storeBanner (env.bannerOf r))) }
          else st1
        let st3 :=
          if doService then
            { st2 with detected_services :=
                (dictSet st2.detected_services r
                  (detect_service_from_banner env.servTable r
                    ((dictGet st2.banners r).join))) }
          else st2
        st3

/-- COMMON_PORTS of the source, in order. -/
def COMMON_PORTS : List Nat :=
  [20, 21, 22, 23, 25, 53, 80, 110, 111, 135, 139, 143, 443, 445, 993,
   995, 1723, 3306, 3389, 5900, 8080, 8443]

/-- A parsed ports specification (the modes of parse_ports_spec). -/
inductive PortsMode
  | common
  | range (s e : Nat)
  | list (ps : List Nat)
  | single (p : Nat)

/-- The port universe a mode denotes, in submission order: common list,
range(start, end+1), the given list, or the singleton. -/
def portsOf : PortsMode → List Nat
  | .common => COMMON_PORTS
  | .range s e => List.range' s (e + 1 - s)
  | .list ps => ps
  | .single p => [p]

/-- Which processing orders a scan can exhibit for a mode: range mode
fans probes out on a thread pool and handles them in completion order,
i.e. any permutation of the port range; the other three modes process
their ports sequentially in order. -/
def validExec : PortsMode → List Nat → Prop
  | .range s e, exec => exec.Perm (portsOf (.range s e))
  | m, exec => exec = portsOf m

/-- The probe loop over the ports that actually got processed: with
interruptAfter = some j, KeyboardInterrupt reaches the loop after j
completed iterations (the remaining ports are never probed) and the
handler in scan_one_target falls through to finalization. -/
def runScan (env : ScanEnv) (doBanner doService : Bool)
    (exec : List Nat) (interruptAfter : Option Nat) : ScannerState :=
  let probed := match interruptAfter with
    | none => exec
    | some j => exec.take j
  probed.foldl (processPort env doBanner doService) initState

/-- The per-target result object assembled at the end of
scan_one_target (lines 485-494) and handed to write_scan_result. -/
structure ScanReport where
  addr : Option String
  family : Option String
  open_ports : List Nat
  banners : List (Nat × Option String)
  detected_services : List (Nat × String)
  deriving DecidableEq, Repr

/-- The family field of the result object: "ipv6", "ipv4" or None. -/
def famString (f : Option Nat) : Option String :=
  if f = some AF_INET6 then some "ipv6"
  else if f = some AF_INET then some "ipv4"
  else none

/-- scan_one_target: if resolve_target failed, return with no report;
otherwise run the probe loop (possibly interrupted by the user) and
build the result object with sorted(open_ports), always emitting it —
also on the KeyboardInterrupt and exception paths. -/
def scan_one_target (env : ScanEnv) (resolved : Bool)
    (doBanner doService : Bool) (exec : List Nat)
    (interruptAfter : Option Nat) : Option ScanReport :=
  if !resolved then none
  else
    let st := runScan env doBanner doService exec interruptAfter
    some { addr := env.addr
           family := famString env.family
           open_ports := st.open_ports.mergeSort
           banners := st.banners
           detected_services := st.detected_services }

/-- Concrete environment for witnesses: a resolved loopback target on
which port 22 connects successfully and every other port is refused
with errno 111. -/
def envA : ScanEnv :=
  { addr := some "127.0.0.1"
    family := some AF_INET
    connectBeh := fun p => if p = 22 then .connectRet 0 else .connectRet 111
    bannerOf := fun _ => none
    servTable := fun _ => none }

/-- Environment for the duplicate-list counterexample: a resolved
loopback target on which every port connects successfully. -/
def envDup : ScanEnv :=
  { addr := some "127.0.0.1"
    family := some AF_INET
    connectBeh := fun _ => .connectRet 0
    bannerOf := fun _ => none
    servTable := fun _ => none }

/-! ### Theorems -/

/-! ### Lemmas about substring matching and the rule list -/

theorem listContains_eq_true_iff {key s : List Char} :
    listContains key s = true ↔ key <:+: s := by
  induction s with
  | nil => simp [listContains, List.isEmpty_iff, List.infix_nil]
  | cons c rest ih =>
      simp only [listContains, Bool.or_eq_true, List.isPrefixOf_iff_prefix, ih,
        List.infix_cons_iff]

theorem listContains_mono {k₁ k₂ s : List Char} (h : k₁ <:+: k₂)
    (h₂ : listContains k₂ s = true) : listContains k₁ s = true :=
  listContains_eq_true_iff.mpr (h.trans (listContains_eq_true_iff.mp h₂))

theorem strContains_smtp_of_esmtp {b : String}
    (h : strContains "esmtp" b = true) : strContains "smtp" b = true :=
  listContains_mono ⟨['e'], [], by decide⟩ h

theorem strContains_http_of_httpSlash {b : String}
    (h : strContains "http/" b = true) : strContains "http" b = true :=
  listContains_mono ⟨[], ['/'], by decide⟩ h

theorem strContains_ssl_of_openssl {b : String}
    (h : strContains "openssl" b = true) : strContains "ssl" b = true :=
  listContains_mono ⟨['o', 'p', 'e', 'n'], [], by decide⟩ h

theorem strContains_ssh_of_sshDash {b : String}
    (h : strContains "ssh-" b = true) : strContains "ssh" b = true :=
  listContains_mono ⟨[], ['-'], by decide⟩ h

theorem firstMatch_isSome_of_mem (cs : List (String × String)) (k n b : String)
    (hmem : (k, n) ∈ cs) (h : strContains k b = true) :
    (firstMatch cs b).isSome = true := by
  induction cs with
  | nil => cases hmem
  | cons kn rest ih =>
      rcases kn with ⟨k', n'⟩
      by_cases hk : strContains k' b
      · simp [firstMatch, hk]
      · rcases List.mem_cons.mp hmem with heq | hmem'
        · cases heq; exact absurd h hk
        · simpa [firstMatch, hk] using ih hmem'

theorem firstMatch_skip_redundant (cs : List (String × String))
    (key₂ name₂ : String) (rest : List (String × String)) (b : String)
    (hcov : strContains key₂ b = true → (firstMatch cs b).isSome = true) :
    firstMatch (cs ++ (key₂, name₂) :: rest) b = firstMatch (cs ++ rest) b := by
  induction cs with
  | nil =>
      simp only [List.nil_append]
      by_cases hk : strContains key₂ b
      · have := hcov hk; simp [firstMatch] at this
      · simp [firstMatch, hk]
  | cons kn cs ih =>
      rcases kn with ⟨k, n⟩
      by_cases hk : strContains k b
      · simp [firstMatch, hk]
      · simp only [List.cons_append, firstMatch, hk, if_false, Bool.false_eq_true,
          if_neg, not_false_eq_true]
        exact ih (fun h => by simpa [firstMatch, hk] using hcov h)

theorem firstMatch_checks_eq_pruned (b : String) :
    firstMatch serviceChecks b = firstMatch prunedChecks b := by
  have h1 := firstMatch_skip_redundant
    [("nginx", "nginx"), ("apache", "apache"), ("iis", "iis"),
     ("tomcat", "tomcat"), ("ssh", "ssh"), ("smtp", "smtp")]
    "esmtp" "smtp"
    [("ftp", "ftp"), ("mysql", "mysql"), ("mariadb", "mysql"),
     ("postgres", "postgresql"), ("http", "http"), ("http/", "http"),
     ("ssl", "ssl"), ("openssl", "ssl"), ("ssh-", "ssh"),
     ("postfix", "smtp"), ("exim", "smtp"), ("dovecot", "imap/pop3"),
     ("imap", "imap"), ("pop3", "pop3"), ("rdp", "rdp")]
    b (fun h => firstMatch_isSome_of_mem _ "smtp" "smtp" b (by simp) (strContains_smtp_of_esmtp h))
  have h2 := firstMatch_skip_redundant
    [("nginx", "nginx"), ("apache", "apache"), ("iis", "iis"),
     ("tomcat", "tomcat"), ("ssh", "ssh"), ("smtp", "smtp"), ("ftp", "ftp"),
     ("mysql", "mysql"), ("mariadb", "mysql"), ("postgres", "postgresql"),
     ("http", "http")]
    "http/" "http"
    [("ssl", "ssl"), ("openssl", "ssl"), ("ssh-", "ssh"),
     ("postfix", "smtp"), ("exim", "smtp"), ("dovecot", "imap/pop3"),
     ("imap", "imap"), ("pop3", "pop3"), ("rdp", "rdp")]
    b (fun h => firstMatch_isSome_of_mem _ "http" "http" b (by simp) (strContains_http_of_httpSlash h))
  have h3 := firstMatch_skip_redundant
    [("nginx", "nginx"), ("apache", "apache"), ("iis", "iis"),
     ("tomcat", "tomcat"), ("ssh", "ssh"), ("smtp", "smtp"), ("ftp", "ftp"),
     ("mysql", "mysql"), ("mariadb", "mysql"), ("postgres", "postgresql"),
     ("http", "http"), ("ssl", "ssl")]
    "openssl" "ssl"
    [("ssh-", "ssh"), ("postfix", "smtp"), ("exim", "smtp"),
     ("dovecot", "imap/pop3"), ("imap", "imap"), ("pop3", "pop3"),
     ("rdp", "rdp")]
    b (fun h => firstMatch_isSome_of_mem _ "ssl" "ssl" b (by simp) (strContains_ssl_of_openssl h))
  have h4 := firstMatch_skip_redundant
    [("nginx", "nginx"), ("apache", "apache"), ("iis", "iis"),
     ("tomcat", "tomcat"), ("ssh", "ssh"), ("smtp", "smtp"), ("ftp", "ftp"),
     ("mysql", "mysql"), ("mariadb", "mysql"), ("postgres", "postgresql"),
     ("http", "http"), ("ssl", "ssl")]
    "ssh-" "ssh"
    [("postfix", "smtp"), ("exim", "smtp"), ("dovecot", "imap/pop3"),
     ("imap", "imap"), ("pop3", "pop3"), ("rdp", "rdp")]
    b (fun h => firstMatch_isSome_of_mem _ "ssh" "ssh" b (by simp) (strContains_ssh_of_sshDash h))
  simp only [List.cons_append, List.nil_append] at h1 h2 h3 h4
  unfold serviceChecks prunedChecks
  rw [h1, h2, h3, h4]

theorem firstMatch_eq_find (checks : List (String × String)) (b : String) :
    firstMatch checks b =
      (checks.find? (fun kn => strContains kn.1 b)).map Prod.snd := by
  induction checks with
  | nil => rfl
  | cons kn rest ih =>
      rcases kn with ⟨key, name⟩
      by_cases h : strContains key b <;> simp [firstMatch, List.find?, h, ih]

theorem baseName_of_none {table : ServTable} {port : Nat}
    (h : table port = none) : baseName table port = none := by
  simp [baseName, get_service_name, h]

theorem baseName_of_some {table : ServTable} {port : Nat} {bs : String}
    (h : table port = some bs) (h1 : bs ≠ "") (h2 : bs ≠ "unknown") :
    baseName table port = some bs := by
  have : ¬bs.isEmpty := fun he => h1 ((String.isEmpty_iff bs).mp he)
  simp [baseName, get_service_name, h, h2, this]

theorem firstMatch_empty_banner : firstMatch serviceChecks (pyLower "") = none := by
  decide

/-- C8: for every port and banner, detect_service_from_banner looks up
the port's base service name, returns it (or "unknown") when no banner
is present, and otherwise lowercases the banner and applies the fixed
keyword rule list in order, first match wins, rendering
"<base> (<label>)" when a base name exists and just the label
otherwise, falling back to the base name or "unknown" — i.e. it agrees
with the classifier exactly as the spec words it — and with a port
table mapping 22 to "ssh", classify(22, "SSH-2.0-OpenSSH_8.9") yields
"ssh (ssh)". -/
theorem detect_service_matches_spec (table : ServTable)
    (htab : ∀ p, table p ≠ some "" ∧ table p ≠ some "unknown")
    (port : Nat) (banner : Option String) :
    detect_service_from_banner table port banner = classifySpec table port banner ∧
    detect_service_from_banner sshServTable 22 (some "SSH-2.0-OpenSSH_8.9") =
      "ssh (ssh)" := by
  refine ⟨?_, by decide⟩
  have hfind0 : serviceChecks.find? (fun kn => strContains kn.1 (pyLower "")) = none := by
    have h := firstMatch_eq_find serviceChecks (pyLower "")
    rw [firstMatch_empty_banner] at h
    exact Option.map_eq_none.mp h.symm
  cases htp : table port with
  | none =>
      have hb := baseName_of_none htp
      cases banner with
      | none => simp [detect_service_from_banner, classifySpec, hb, htp, pyTruthyOptStr]
      | some s =>
          by_cases hs : s = ""
          · subst hs
            simp [detect_service_from_banner, classifySpec, hb, htp,
              pyTruthyOptStr, hfind0, firstMatch_empty_banner]
          · have hs' : s.isEmpty = false := by
              cases he : s.isEmpty
              · rfl
              · exact absurd ((String.isEmpty_iff s).mp he) hs
            simp only [detect_service_from_banner, classifySpec, hb, htp,
              pyTruthyOptStr, hs', Bool.not_false, Option.getD_some]
            rw [firstMatch_eq_find]
            cases serviceChecks.find? (fun kn => strContains kn.1 (pyLower s)) <;> simp
  | some bs =>
      have h1 : bs ≠ "" := by
        intro h; exact (htab port).1 (by rw [htp, h])
      have h2 : bs ≠ "unknown" := by
        intro h; exact (htab port).2 (by rw [htp, h])
      have hb := baseName_of_some htp h1 h2
      cases banner with
      | none => simp [detect_service_from_banner, classifySpec, hb, htp, pyTruthyOptStr]
      | some s =>
          by_cases hs : s = ""
          · subst hs
            simp [detect_service_from_banner, classifySpec, hb, htp,
              pyTruthyOptStr, hfind0, firstMatch_empty_banner]
          · have hs' : s.isEmpty = false := by
              cases he : s.isEmpty
              · rfl
              · exact absurd ((String.isEmpty_iff s).mp he) hs
            simp only [detect_service_from_banner, classifySpec, hb, htp,
              pyTruthyOptStr, hs', Bool.not_false, Option.getD_some]
            rw [firstMatch_eq_find]
            cases serviceChecks.find? (fun kn => strContains kn.1 (pyLower s)) <;> simp

/-- Witness for C8 at the concrete table mapping port 22 to "ssh", port
22 and the banner "SSH-2.0-OpenSSH_8.9". -/
theorem detect_service_matches_spec_witness :
    detect_service_from_banner sshServTable 22 (some "SSH-2.0-OpenSSH_8.9") =
      classifySpec sshServTable 22 (some "SSH-2.0-OpenSSH_8.9") ∧
    detect_service_from_banner sshServTable 22 (some "SSH-2.0-OpenSSH_8.9") =
      "ssh (ssh)" :=
  detect_service_matches_spec sshServTable
    (by
      intro p
      by_cases h : p = 22 <;> simp [sshServTable, h])
    22 (some "SSH-2.0-OpenSSH_8.9")

/-- C10: the four keyword rules ("esmtp","smtp"), ("http/","http"),
("openssl","ssl") and ("ssh-","ssh") are unreachable — each keyword
contains an earlier rule's keyword as a substring — so the classifier
is extensionally equal to the classifier with those four rules
removed. -/
theorem detect_service_pruned_equiv (table : ServTable) (port : Nat)
    (banner : Option String) :
    detect_service_from_banner table port banner =
      detect_service_from_banner_pruned table port banner := by
  unfold detect_service_from_banner detect_service_from_banner_pruned
  simp only [firstMatch_checks_eq_pruned]

theorem filter_range_interior (m : Nat) :
    (List.range (m + 2)).filter
        (fun i => i != 0 && i != m + 1) = List.range' 1 m := by
  have hsplit : List.range' 1 (m + 1) = List.range' 1 m ++ [1 + m] := by
    have h := @List.range'_concat 1 1 m
    simpa using h
  rw [List.range_eq_range', List.range'_succ]
  rw [List.filter_cons]
  have h0 : ((0 != 0 && 0 != m + 1) = false) := by simp
  rw [h0]
  simp only [Bool.false_eq_true, if_false]
  rw [hsplit, List.filter_append]
  have hkeep : (List.range' 1 m).filter (fun i => i != 0 && i != m + 1) =
      List.range' 1 m := by
    refine List.filter_eq_self.mpr ?_
    intro a ha
    rcases List.mem_range'.mp ha with ⟨i, hi, rfl⟩
    have h1 : 1 + 1 * i ≠ 0 := by omega
    have h2 : 1 + 1 * i ≠ m + 1 := by omega
    have h1x : 1 + i ≠ 0 := by omega
    have h2x : 1 + i ≠ m + 1 := by omega
    simp [h1, h2, h1x, h2x]
  have hdrop : ([1 + m].filter (fun i => i != 0 && i != m + 1)) = [] := by
    have he : (1 + m) = m + 1 := by omega
    simp [List.filter_cons, he]
  rw [hkeep, hdrop, List.append_nil]

theorem hostsList_eq_usableHostsSpec (n : IPv4Net) (hp : n.prefixLen ≤ 32) :
    hostsList n = usableHostsSpec n := by
  rcases Nat.lt_or_ge n.prefixLen 31 with h31 | h31
  · -- prefix length at most 30: the filter description
    have h32 : n.prefixLen ≠ 32 := by omega
    have h31x : n.prefixLen ≠ 31 := by omega
    have hk : 2 ≤ 32 - n.prefixLen := by omega
    obtain ⟨m, hm⟩ : ∃ m, num_addresses n = m + 2 := by
      have h4 : 4 ≤ num_addresses n := by
        have hpow : 2 ^ 2 ≤ 2 ^ (32 - n.prefixLen) :=
          Nat.pow_le_pow_right (by omega) hk
        simpa [num_addresses] using hpow
      exact ⟨num_addresses n - 2, by omega⟩
    have hb : broadcast_address n = n.network + (m + 1) := by
      simp only [broadcast_address, hm]; omega
    simp only [hostsList, usableHostsSpec, if_neg h32, if_neg h31x,
      if_neg (by omega : ¬31 ≤ n.prefixLen), allAddresses, hm, hb,
      Nat.add_sub_cancel]
    rw [List.filter_map]
    have hcond : ((fun a => a != n.network && a != n.network + (m + 1)) ∘
        (fun i => n.network + i)) = (fun i => i != 0 && i != m + 1) := by
      funext i
      show ((n.network + i != n.network) && (n.network + i != n.network + (m + 1))) =
        ((i != 0) && (i != m + 1))
      rw [Bool.eq_iff_iff]
      simp only [Bool.and_eq_true, bne_iff_ne, ne_eq]
      omega
    rw [hcond, filter_range_interior, List.range'_eq_map_range, List.map_map]
    refine List.map_congr_left ?_
    intro i _
    simp only [Function.comp]
    omega
  · -- /31 and /32: all the network addresses are kept
    have hcases : n.prefixLen = 31 ∨ n.prefixLen = 32 := by omega
    rcases hcases with h | h
    · have hn : num_addresses n = 2 := by
        unfold num_addresses; rw [h]; decide
      simp [hostsList, usableHostsSpec, allAddresses, h, hn,
        List.range_succ, List.range_zero]
    · have hn : num_addresses n = 1 := by
        unfold num_addresses; rw [h]; decide
      simp [hostsList, usableHostsSpec, allAddresses, h, hn,
        List.range_succ, List.range_zero]

theorem hostsList_ne_nil (n : IPv4Net) (hp : n.prefixLen ≤ 32) :
    hostsList n ≠ [] := by
  unfold hostsList
  by_cases h32 : n.prefixLen = 32
  · simp [h32]
  · by_cases h31 : n.prefixLen = 31
    · simp [h32, h31]
    · simp only [if_neg h32, if_neg h31]
      have h4 : 4 ≤ num_addresses n := by
        have hk : 2 ≤ 32 - n.prefixLen := by omega
        have hpow : 2 ^ 2 ≤ 2 ^ (32 - n.prefixLen) :=
          Nat.pow_le_pow_right (by omega) hk
        simpa [num_addresses] using hpow
      simp only [ne_eq, List.map_eq_nil_iff, List.range_eq_nil]
      omega

theorem expand_cidr_eq_some_hosts (n : IPv4Net) (hp : n.prefixLen ≤ 32) :
    expand_cidr_if_needed n = some (hostsList n) := by
  have hne := hostsList_ne_nil n hp
  unfold expand_cidr_if_needed
  cases hl : hostsList n with
  | nil => exact absurd hl hne
  | cons x xs => simp [hl]

/-- Counterexample to C4 as stated: expanding the /31 network
192.168.1.0/31 yields both of its addresses, not the network address as
a singleton list. -/
theorem expand_cidr_slash31_counterexample :
    expand_cidr_if_needed ⟨3232235776, 31⟩ =
      some [3232235776, 3232235777] ∧
    some [3232235776, 3232235777] ≠ some ([3232235776] : List Nat) := by
  constructor
  · decide
  · decide

/-- C4 amended: for every syntactically valid IPv4 CIDR, expansion
returns exactly the usable host addresses of the network parsed in
non-strict mode (host bits cleared): all addresses strictly between
network and broadcast for prefix lengths up to 30, the single network
address for a /32, and both addresses (network and broadcast) for a
/31. -/
theorem expand_cidr_usable_hosts (n : IPv4Net) (a : Nat)
    (hp : n.prefixLen ≤ 32) :
    expand_cidr_if_needed n = some (usableHostsSpec n) ∧
    (n.prefixLen = 32 → expand_cidr_if_needed n = some [n.network]) ∧
    (n.prefixLen = 31 →
      expand_cidr_if_needed n = some [n.network, n.network + 1]) ∧
    (ip_network_nonstrict a n.prefixLen).network % 2 ^ (32 - n.prefixLen) = 0 := by
  have hsome := expand_cidr_eq_some_hosts n hp
  refine ⟨?_, ?_, ?_, ?_⟩
  · rw [hsome, hostsList_eq_usableHostsSpec n hp]
  · intro h; rw [hsome]; simp [hostsList, h]
  · intro h
    rw [hsome]
    have h32 : n.prefixLen ≠ 32 := by omega
    simp [hostsList, h, h32]
  · exact Nat.mul_mod_left _ _

/-- Witness for C4's amended theorem at the /31 network 192.168.1.0/31
and the address 192.168.1.5. -/
theorem expand_cidr_usable_hosts_witness :
    expand_cidr_if_needed ⟨3232235776, 31⟩ =
      some (usableHostsSpec ⟨3232235776, 31⟩) ∧
    ((⟨3232235776, 31⟩ : IPv4Net).prefixLen = 32 →
      expand_cidr_if_needed ⟨3232235776, 31⟩ =
        some [(⟨3232235776, 31⟩ : IPv4Net).network]) ∧
    ((⟨3232235776, 31⟩ : IPv4Net).prefixLen = 31 →
      expand_cidr_if_needed ⟨3232235776, 31⟩ =
        some [(⟨3232235776, 31⟩ : IPv4Net).network,
          (⟨3232235776, 31⟩ : IPv4Net).network + 1]) ∧
    (ip_network_nonstrict 3232235781 (⟨3232235776, 31⟩ : IPv4Net).prefixLen).network %
      2 ^ (32 - (⟨3232235776, 31⟩ : IPv4Net).prefixLen) = 0 :=
  expand_cidr_usable_hosts ⟨3232235776, 31⟩ 3232235781 (by decide)

set_option maxRecDepth 4000 in
/-- Counterexample to C3 as stated: the /24 network 192.168.1.0/24 has
254 usable host addresses, which does not exceed maxHosts = 255, yet
with the override flag unset and the confirmation callback returning
false the entry is skipped, because the code gates on the total address
count net.num_addresses = 256. -/
theorem expansion_gate_counterexample :
    usable_host_count ⟨3232235776, 24⟩ = 254 ∧
    254 ≤ 255 ∧
    process_cidr_target ⟨3232235776, 24⟩ 255 false false = none := by
  refine ⟨by decide, by decide, by decide⟩

/-- C3 amended: the expansion safety gate compares the total address
count (net.num_addresses) against maxHosts: whenever that count is at
most maxHosts, expansion proceeds without consulting the confirmation
callback; when it exceeds maxHosts with the override flag unset and the
callback returning false, the entry is skipped (none) and the main loop
continues with the remaining entries rather than raising; in
particular 192.168.1.0/30 with maxHosts = 256 expands without
prompting to its 2 usable hosts. -/
theorem expansion_gate_amended :
    (∀ (n : IPv4Net) (maxHosts : Nat) (force c₁ c₂ : Bool),
        num_addresses n ≤ maxHosts →
        process_cidr_target n maxHosts force c₁ =
            process_cidr_target n maxHosts force c₂ ∧
          process_cidr_target n maxHosts force c₁ = expand_cidr_if_needed n) ∧
    (∀ (n : IPv4Net) (maxHosts : Nat) (confirm : Bool),
        maxHosts < num_addresses n → confirm = false →
        process_cidr_target n maxHosts false confirm = none) ∧
    (∀ (t : IPv4Net) (rest : List IPv4Net) (maxHosts : Nat) (force : Bool)
        (confirm : IPv4Net → Bool),
        process_cidr_target t maxHosts force (confirm t) = none →
        expand_targets (t :: rest) maxHosts force confirm =
          expand_targets rest maxHosts force confirm) ∧
    process_cidr_target ⟨3232235776, 30⟩ 256 false false =
      some [3232235777, 3232235778] := by
  refine ⟨?_, ?_, ?_, by decide⟩
  · intro n maxHosts force c₁ c₂ hle
    have hng : ¬num_addresses n > maxHosts := Nat.not_lt.mpr hle
    constructor <;> simp [process_cidr_target, hng]
  · intro n maxHosts confirm hgt hc
    subst hc
    simp [process_cidr_target, hgt]
  · intro t rest maxHosts force confirm h
    simp [expand_targets, h]

/-- Witness for C3's amended theorem: the /30 network expands
identically for both callback answers, and the /24 network with
maxHosts = 255 and a declining callback is skipped. -/
theorem expansion_gate_amended_witness :
    (process_cidr_target ⟨3232235776, 30⟩ 256 false true =
        process_cidr_target ⟨3232235776, 30⟩ 256 false false ∧
      process_cidr_target ⟨3232235776, 30⟩ 256 false true =
        expand_cidr_if_needed ⟨3232235776, 30⟩) ∧
    process_cidr_target ⟨3232235776, 24⟩ 255 false false = none :=
  ⟨expansion_gate_amended.1 ⟨3232235776, 30⟩ 256 false true false (by decide),
   expansion_gate_amended.2.1 ⟨3232235776, 24⟩ 255 false (by decide) rfl⟩

/-- C5 (the code evaluated at the failing input): when connect_ex
raises, scan_port swallows the exception and returns None without ever
closing the socket it created — sock.close() is reached only on the
path where connect_ex returns normally. -/
theorem scan_port_socket_leak :
    (scan_port_trace true .connectExn 80).opened = true ∧
    (scan_port_trace true .connectExn 80).closed = false ∧
    (scan_port_trace true (.connectRet 0) 80).closed = true ∧
    (scan_port_trace true (.connectRet 111) 80).closed = true := by
  refine ⟨rfl, rfl, rfl, rfl⟩

/-- C6: with addr and family set, scan_port returns the port iff the
connection attempt completes successfully (connect_ex returns 0); any
other outcome — a nonzero error code (refusal, timeout), an exception
from connect, or socket-creation failure — yields None, and a None
result leaves open_ports unchanged in the per-port unit of work. -/
theorem scan_port_open_iff (env : ScanEnv) (port : Nat)
    (h : addrFamilySet env = true) :
    (scan_port env port = some port ↔ env.connectBeh port = .connectRet 0) ∧
    (scan_port env port ≠ some port → scan_port env port = none) ∧
    (scan_port env port = none →
      ∀ (dB dS : Bool) (st : ScannerState),
        (processPort env dB dS st port).open_ports = st.open_ports) := by
  refine ⟨⟨?_, ?_⟩, ?_, ?_⟩
  · intro hs
    cases hbeh : env.connectBeh port with
    | socketExn => simp [scan_port, scan_port_trace, h, hbeh] at hs
    | connectExn => simp [scan_port, scan_port_trace, h, hbeh] at hs
    | connectRet code =>
        by_cases hc : code = 0
        · subst hc; rfl
        · simp [scan_port, scan_port_trace, h, hbeh, hc] at hs
  · intro hb
    simp [scan_port, scan_port_trace, h, hb]
  · intro hne
    cases hbeh : env.connectBeh port with
    | socketExn => simp [scan_port, scan_port_trace, h, hbeh]
    | connectExn => simp [scan_port, scan_port_trace, h, hbeh]
    | connectRet code =>
        by_cases hc : code = 0
        · subst hc
          exact absurd (by simp [scan_port, scan_port_trace, h, hbeh]) hne
        · simp [scan_port, scan_port_trace, h, hbeh, hc]
  · intro hnone dB dS st
    simp [processPort, hnone]

/-- Witness for C6 at the concrete environment envA and port 22. -/
theorem scan_port_open_iff_witness :
    (scan_port envA 22 = some 22 ↔ envA.connectBeh 22 = .connectRet 0) ∧
    (scan_port envA 22 ≠ some 22 → scan_port envA 22 = none) ∧
    (scan_port envA 22 = none →
      ∀ (dB dS : Bool) (st : ScannerState),
        (processPort envA dB dS st 22).open_ports = st.open_ports) :=
  scan_port_open_iff envA 22 (by decide)

/-- C2 (the code evaluated at the failing input): when getaddrinfo
returns an IPv6 candidate first and an IPv4 candidate second, the
selection loop picks the IPv6 candidate — the first usable one in
returned order — even though an IPv4 candidate exists. -/
theorem resolve_picks_first_usable_not_ipv4 :
    chooseAddrInfo [(AF_INET6, "::1"), (AF_INET, "93.184.216.34")] =
      some (AF_INET6, "::1") ∧
    (AF_INET, "93.184.216.34") ∈
      [(AF_INET6, "::1"), (AF_INET, "93.184.216.34")] ∧
    AF_INET6 ≠ AF_INET := by
  refine ⟨by decide, by decide, by decide⟩

/-- Counterexample to C7 as stated: a single space byte (non-empty raw
bytes, whitespace only) decodes and trims to empty text, yet
grab_banner returns the empty string rather than None, because the
absence check is made on the raw bytes before decoding. -/
theorem grab_banner_whitespace_counterexample :
    grab_banner_postprocess [32] = some "" ∧
    (some "" : Option String) ≠ none := by
  refine ⟨by decide, by decide⟩

/-- C7 amended: the post-processing of grab_banner returns None exactly
when the received byte string is empty; otherwise it returns the bytes
decoded with undecodable sequences ignored and surrounding whitespace
trimmed — which is the empty string, not None, when non-empty bytes
decode and trim to nothing. -/
theorem grab_banner_none_iff_empty (banner : List Nat) :
    (grab_banner_postprocess banner = none ↔ banner = []) ∧
    (banner ≠ [] → grab_banner_postprocess banner =
      some (String.mk (pyStrip (utf8DecodeIgnore banner)))) := by
  cases banner with
  | nil => exact ⟨by simp [grab_banner_postprocess], fun h => absurd rfl h⟩
  | cons b bs =>
      refine ⟨?_, fun h => ?_⟩
      · simp [grab_banner_postprocess]
      · simp [grab_banner_postprocess]

/-- Witness for C7's amended theorem: the bytes of "hi" post-process to
the some of their decoded stripped text. -/
theorem grab_banner_none_iff_empty_witness :
    grab_banner_postprocess [104, 105] =
      some (String.mk (pyStrip (utf8DecodeIgnore [104, 105]))) :=
  (grab_banner_none_iff_empty [104, 105]).2 (by decide)

theorem scan_port_some_eq {env : ScanEnv} {p r : Nat}
    (h : scan_port env p = some r) : r = p := by
  cases haf : addrFamilySet env with
  | false => simp [scan_port, scan_port_trace, haf] at h
  | true =>
      cases hbeh : env.connectBeh p with
      | socketExn => simp [scan_port, scan_port_trace, haf, hbeh] at h
      | connectExn => simp [scan_port, scan_port_trace, haf, hbeh] at h
      | connectRet code =>
          by_cases hc : code = 0
          · subst hc
            simp [scan_port, scan_port_trace, haf, hbeh] at h
            exact h.symm
          · simp [scan_port, scan_port_trace, haf, hbeh, hc] at h

theorem dictGet_cons {α : Type} (k' : Nat) (v' : α) (rest : List (Nat × α))
    (q : Nat) :
    dictGet ((k', v') :: rest) q =
      if k' = q then some v' else dictGet rest q := by
  simp only [dictGet, List.find?_cons]
  by_cases h : k' = q
  · simp [h]
  · have hb : (k' == q) = false := beq_eq_false_iff_ne.mpr h
    simp [h, hb]

theorem dictGet_dictSet_self {α : Type} (d : List (Nat × α)) (k : Nat)
    (v : α) : dictGet (dictSet d k v) k = some v := by
  induction d with
  | nil => simp [dictSet, dictGet_cons]
  | cons kv rest ih =>
      rcases kv with ⟨k', v'⟩
      by_cases h : k' = k
      · subst h; simp [dictSet, dictGet_cons]
      · simp [dictSet, h, dictGet_cons, ih]

theorem dictGet_dictSet_ne {α : Type} (d : List (Nat × α)) (k q : Nat)
    (v : α) (h : q ≠ k) : dictGet (dictSet d k v) q = dictGet d q := by
  have hne : ¬k = q := fun e => h e.symm
  induction d with
  | nil => simp [dictSet, dictGet_cons, dictGet, hne]
  | cons kv rest ih =>
      rcases kv with ⟨k', v'⟩
      by_cases hk : k' = k
      · subst hk; simp [dictSet, dictGet_cons, hne]
      · by_cases hq : k' = q
        · subst hq; simp [dictSet, hk, dictGet_cons]
        · simp [dictSet, hk, dictGet_cons, hq, ih]

theorem processPort_open_ports (env : ScanEnv) (dB dS : Bool)
    (st : ScannerState) (p : Nat) :
    (processPort env dB dS st p).open_ports =
      st.open_ports ++ (if probeOpen env p then [p] else []) := by
  cases hs : scan_port env p with
  | none => simp [processPort, hs, probeOpen, pyTruthyOptNat]
  | some r =>
      have hr : r = p := scan_port_some_eq hs
      subst hr
      by_cases h0 : r = 0
      · subst h0
        simp [processPort, hs, probeOpen, pyTruthyOptNat]
      · cases dB <;> cases dS <;>
          simp [processPort, hs, probeOpen, pyTruthyOptNat, h0]

theorem processPort_banners_get (env : ScanEnv) (dB dS : Bool)
    (st : ScannerState) (p q : Nat) :
    dictGet (processPort env dB dS st p).banners q =
      if dB = true ∧ probeOpen env p = true ∧ q = p then
        some (storeBanner (env.bannerOf p))
      else dictGet st.banners q := by
  cases hs : scan_port env p with
  | none => simp [processPort, hs, probeOpen, pyTruthyOptNat]
  | some r =>
      have hr : r = p := scan_port_some_eq hs
      subst hr
      by_cases h0 : r = 0
      · subst h0
        simp [processPort, hs, probeOpen, pyTruthyOptNat]
      · have hop : probeOpen env r = true := by
          simp [probeOpen, hs, pyTruthyOptNat, h0]
        cases hdB : dB with
        | false => cases dS <;> simp [processPort, hs, h0, hop]
        | true =>
            by_cases hqp : q = r
            · subst hqp
              cases dS <;>
                simp [processPort, hs, h0, hop, dictGet_dictSet_self]
            · cases dS <;>
                simp [processPort, hs, h0, hop, hqp,
                  dictGet_dictSet_ne _ _ _ _ hqp]

theorem processPort_services_get (env : ScanEnv) (dB dS : Bool)
    (st : ScannerState) (p q : Nat) :
    dictGet (processPort env dB dS st p).detected_services q =
      if dS = true ∧ probeOpen env p = true ∧ q = p then
        some (detect_service_from_banner env.servTable p
          (if dB = true then storeBanner (env.bannerOf p)
           else (dictGet st.banners p).join))
      else dictGet st.detected_services q := by
  cases hs : scan_port env p with
  | none => simp [processPort, hs, probeOpen, pyTruthyOptNat]
  | some r =>
      have hr : r = p := scan_port_some_eq hs
      subst hr
      by_cases h0 : r = 0
      · subst h0
        simp [processPort, hs, probeOpen, pyTruthyOptNat]
      · have hop : probeOpen env r = true := by
          simp [probeOpen, hs, pyTruthyOptNat, h0]
        cases hdS : dS with
        | false => cases dB <;> simp [processPort, hs, h0, hop]
        | true =>
            by_cases hqp : q = r
            · subst hqp
              cases hdB : dB <;>
                simp [processPort, hs, h0, hop, dictGet_dictSet_self]
            · cases hdB : dB <;>
                simp [processPort, hs, h0, hop, hqp,
                  dictGet_dictSet_self, dictGet_dictSet_ne _ _ _ _ hqp]

theorem runScan_foldl_char (env : ScanEnv) (dB dS : Bool) (l : List Nat) :
    (l.foldl (processPort env dB dS) initState).open_ports =
        l.filter (probeOpen env) ∧
    (∀ q, dictGet (l.foldl (processPort env dB dS) initState).banners q =
        (if dB = true ∧ probeOpen env q = true ∧ q ∈ l
         then some (storeBanner (env.bannerOf q)) else none)) ∧
    (∀ q, dictGet
        (l.foldl (processPort env dB dS) initState).detected_services q =
        (if dS = true ∧ probeOpen env q = true ∧ q ∈ l
         then some (detect_service_from_banner env.servTable q
             (if dB = true then storeBanner (env.bannerOf q) else none))
         else none)) := by
  induction l using List.reverseRecOn with
  | nil =>
      exact ⟨rfl, fun q => by simp [initState, dictGet],
        fun q => by simp [initState, dictGet]⟩
  | append_singleton l p ih =>
      obtain ⟨ih1, ih2, ih3⟩ := ih
      simp only [List.foldl_append, List.foldl_cons, List.foldl_nil]
      refine ⟨?_, ?_, ?_⟩
      · rw [processPort_open_ports, ih1, List.filter_append]
        simp [List.filter_cons]
      · intro q
        rw [processPort_banners_get, ih2 q]
        by_cases hqp : q = p
        · subst hqp
          by_cases hdB : dB = true
          · by_cases hop : probeOpen env q = true
            · simp [hdB, hop]
            · simp [hdB, hop]
          · simp [hdB]
        · by_cases hql : q ∈ l <;> simp [hqp, hql]
      · intro q
        rw [processPort_services_get]
        have hval : (if dB = true then storeBanner (env.bannerOf p)
            else (dictGet (l.foldl (processPort env dB dS) initState).banners p).join) =
            (if dB = true then storeBanner (env.bannerOf p) else none) := by
          rw [ih2 p]
          by_cases hdB : dB = true <;> simp [hdB]
        rw [hval, ih3 q]
        by_cases hqp : q = p
        · subst hqp
          by_cases hdS : dS = true
          · by_cases hop : probeOpen env q = true
            · simp [hdS, hop]
            · simp [hdS, hop]
          · simp [hdS]
        · by_cases hql : q ∈ l <;> simp [hqp, hql]

/-- Counterexample to C1 as stated: scanning the List spec [80, 80]
(duplicate entries, port 80 open) produces the final open-ports
sequence [80, 80], which contains a duplicate and is not strictly
ascending. -/
theorem scan_list_duplicates_counterexample :
    validExec (.list [80, 80]) [80, 80] ∧
    (scan_one_target envDup true false false [80, 80] none).map
        ScanReport.open_ports = some [80, 80] ∧
    ¬([80, 80] : List Nat).Nodup ∧
    ¬List.Sorted (· < ·) ([80, 80] : List Nat) := by
  refine ⟨rfl, ?_, by decide, by decide⟩
  have hrun : (runScan envDup false false [80, 80] none).open_ports =
      [80, 80] := by decide
  have hrep : (scan_one_target envDup true false false [80, 80] none).map
      ScanReport.open_ports =
      some (((runScan envDup false false [80, 80] none).open_ports).mergeSort) :=
    rfl
  rw [hrep, hrun,
    List.mergeSort_eq_self (by decide : List.Sorted (· ≤ ·) ([80, 80] : List Nat))]

/-- C1 amended: for every completed scan of a resolved target, the
final open-ports sequence contains only ports from the PortSpec's
universe and is sorted non-decreasingly; when the universe list has no
duplicate entries (always the case for Range, Single and AllCommon
specs), it additionally has no duplicates and is strictly ascending —
but a List spec with duplicate entries appends the port once per
probed duplicate entry, so only non-strict sortedness holds in
general. -/
theorem scan_report_open_ports_invariants (env : ScanEnv) (dB dS : Bool)
    (mode : PortsMode) (exec : List Nat) (hexec : validExec mode exec) :
    ∃ r, scan_one_target env true dB dS exec none = some r ∧
      (∀ p, p ∈ r.open_ports → p ∈ portsOf mode) ∧
      List.Sorted (· ≤ ·) r.open_ports ∧
      ((portsOf mode).Nodup →
        r.open_ports.Nodup ∧ List.Sorted (· < ·) r.open_ports) := by
  have hmem_exec : ∀ p, p ∈ exec → p ∈ portsOf mode := by
    cases mode with
    | range s e =>
        have hperm : exec.Perm (portsOf (.range s e)) := hexec
        exact fun p hp => hperm.mem_iff.mp hp
    | common => intro p hp; rw [(hexec : exec = portsOf .common)] at hp; exact hp
    | list ps => intro p hp; rw [(hexec : exec = portsOf (.list ps))] at hp; exact hp
    | single p₀ =>
        intro p hp
        rw [(hexec : exec = portsOf (.single p₀))] at hp; exact hp
  have hnodup_exec : (portsOf mode).Nodup → exec.Nodup := by
    cases mode with
    | range s e =>
        have hperm : exec.Perm (portsOf (.range s e)) := hexec
        exact fun h => hperm.nodup_iff.mpr h
    | common => intro h; rw [(hexec : exec = portsOf .common)]; exact h
    | list ps => intro h; rw [(hexec : exec = portsOf (.list ps))]; exact h
    | single p₀ => intro h; rw [(hexec : exec = portsOf (.single p₀))]; exact h
  have hrs : runScan env dB dS exec none =
      exec.foldl (processPort env dB dS) initState := rfl
  have hchar := (runScan_foldl_char env dB dS exec).1
  refine ⟨_, rfl, ?_, ?_, ?_⟩
  · intro p hp
    have hp2 : p ∈ (runScan env dB dS exec none).open_ports :=
      List.mem_mergeSort.mp hp
    rw [hrs, hchar] at hp2
    exact hmem_exec p (List.mem_of_mem_filter hp2)
  · exact List.sorted_mergeSort' _
  · intro hnd
    have hfil : (exec.filter (probeOpen env)).Nodup :=
      (hnodup_exec hnd).filter _
    have hopnd : ((runScan env dB dS exec none).open_ports).Nodup := by
      rw [hrs, hchar]; exact hfil
    have hnd2 : (((runScan env dB dS exec none).open_ports).mergeSort).Nodup :=
      (List.mergeSort_perm _ _).nodup_iff.mpr hopnd
    exact ⟨hnd2, (List.sorted_mergeSort' _).lt_of_le hnd2⟩

/-- Witness for C1's amended theorem: the List spec [22, 80] scanned
sequentially in the environment where only port 22 is open. -/
theorem scan_report_open_ports_invariants_witness :
    ∃ r, scan_one_target envA true false false [22, 80] none = some r ∧
      (∀ p, p ∈ r.open_ports → p ∈ portsOf (.list [22, 80])) ∧
      List.Sorted (· ≤ ·) r.open_ports ∧
      ((portsOf (.list [22, 80])).Nodup →
        r.open_ports.Nodup ∧ List.Sorted (· < ·) r.open_ports) :=
  scan_report_open_ports_invariants envA false false (.list [22, 80])
    [22, 80] rfl

/-- C9: a scan interrupted after j completed probes still emits a
finalized report: its open ports are exactly the sorted open outcomes
of the first j processed ports, sorted ascending, and its banner and
service maps hold entries exactly for those recorded open ports — the
stored banner being the grabbed banner normalized by the `if banner:`
check (None when the grab returned None or the empty string). -/
theorem scan_interrupt_partial_report (env : ScanEnv) (dB dS : Bool)
    (exec : List Nat) (j : Nat) :
    ∃ r, scan_one_target env true dB dS exec (some j) = some r ∧
      r.open_ports = ((exec.take j).filter (probeOpen env)).mergeSort ∧
      List.Sorted (· ≤ ·) r.open_ports ∧
      (∀ q, dictGet r.banners q =
        (if dB = true ∧ probeOpen env q = true ∧ q ∈ exec.take j
         then some (storeBanner (env.bannerOf q)) else none)) ∧
      (∀ q, dictGet r.detected_services q =
        (if dS = true ∧ probeOpen env q = true ∧ q ∈ exec.take j
         then some (detect_service_from_banner env.servTable q
             (if dB = true then storeBanner (env.bannerOf q) else none))
         else none)) := by
  obtain ⟨h1, h2, h3⟩ := runScan_foldl_char env dB dS (exec.take j)
  have hrs : runScan env dB dS exec (some j) =
      (exec.take j).foldl (processPort env dB dS) initState := rfl
  refine ⟨_, rfl, ?_, ?_, ?_, ?_⟩
  · show ((runScan env dB dS exec (some j)).open_ports).mergeSort = _
    rw [hrs, h1]
  · show List.Sorted (· ≤ ·)
      (((runScan env dB dS exec (some j)).open_ports).mergeSort)
    exact List.sorted_mergeSort' _
  · intro q
    show dictGet (runScan env dB dS exec (some j)).banners q = _
    rw [hrs]; exact h2 q
  · intro q
    show dictGet (runScan env dB dS exec (some j)).detected_services q = _
    rw [hrs]; exact h3 q

end PortScan

